import Mathlib

/-
  Verification development for the gpii-testem lifecycle orchestration and
  coverage-collection code (src/js/testem-component.js and
  src/js/coverageReceiverMiddleware.js).

  The JavaScript is shallowly embedded: Fluid promises are modelled by an
  explicit disposition type, promise chains by Except-valued folds, the
  asynchronous single-use event listener plus timeout by a small labelled
  transition system, and filesystem / rimraf effects by explicit environment
  records of total functions.  Log output that the source emits through
  fluid.log is modelled as an explicit list of log entries so that the
  logged-and-absorbed versus rejected distinction is observable.
-/

/-- Log levels used by fluid.log in the embedded code (fluid.logLevel.WARN,
fluid.logLevel.FAIL, and the default INFO level). -/
inductive LogLevel where
  | info
  | warn
  | fail
deriving DecidableEq

/-- One fluid.log line: a level and the concatenated message. -/
structure LogEntry where
  level : LogLevel
  message : String
deriving DecidableEq

/-- The settled state of a Fluid promise: resolved (possibly with a payload)
or rejected with an error. -/
inductive Disposition where
  | resolved
  | rejected (error : String)
deriving DecidableEq

/- ===================================================================
   gpii.testem.handleTestemLifecycleEvent  (testem-component.js 36-48)
   =================================================================== -/

/-- Embeds fluid.promise.fireTransformEvent for one root event: the listeners
fire in sequence, each receiving the previous payload; the first rejection
short-circuits the chain to a rejected outcome.  A listener is modelled as a
function from the incoming payload to an Except outcome. -/
def fireTransformEvent (listeners : List (Option String → Except String (Option String)))
    (payload : Option String) : Except String (Option String) :=
  listeners.foldl (fun acc listener => acc.bind listener) (Except.ok payload)

/-- Observable actions of gpii.testem.handleTestemLifecycleEvent: fluid.log
calls and the invocation of the Testem callback. -/
inductive TestemAction where
  | logMessage (message : String)
  | fireTestemCallback
deriving DecidableEq

/-- Embeds gpii.testem.handleTestemLifecycleEvent (testem-component.js 36-48),
wired as handleTestemStart / handleTestemExit: it fires the transform chain
for the root component event and registers the same callback-invoking handler
for both the resolution and the rejection branch of the chain. -/
def handleTestemLifecycleEvent
    (listeners : List (Option String → Except String (Option String)))
    (payload : Option String) : List TestemAction :=
  match fireTransformEvent listeners payload with
  | Except.ok _ =>
      [TestemAction.logMessage "Successfully reached the end of promise chain. Firing testem callback.",
       TestemAction.fireTestemCallback]
  | Except.error _ =>
      [TestemAction.logMessage "Promise chain terminated by promise rejection. Firing testem callback.",
       TestemAction.fireTestemCallback]

/-- Recognizes the Testem callback invocation among the observable actions. -/
def isCallbackInvocation : TestemAction → Bool
  | TestemAction.fireTestemCallback => true
  | TestemAction.logMessage _ => false

/-- Number of Testem callback invocations in a run of a lifecycle entry point. -/
def callbackCount (actions : List TestemAction) : Nat :=
  (actions.filter isCallbackInvocation).length

/- ===================================================================
   gpii.testem.wrapSecondaryEvent / generateSingleUseEventListener /
   addPromiseTimeout  (testem-component.js 58-113)
   =================================================================== -/

/-- How the event promise of a wrapped secondary event settled: resolved with
the event arguments, resolved with no payload (the timeout path resolves with
no argument), or rejected externally. -/
inductive WaitDisposition where
  | resolved (payload : Option (List String))
  | rejected (error : String)
deriving DecidableEq

/-- State of one wrapSecondaryEvent call: the disposition of the event
promise (none while pending), whether the single-use event listener added by
generateSingleUseEventListener is still registered, and whether the timeout
armed by addPromiseTimeout is still pending (not yet fired, not cleared). -/
structure WaitState where
  disposition : Option WaitDisposition
  listenerRegistered : Bool
  timeoutActive : Bool
deriving DecidableEq

/-- State directly after gpii.testem.wrapSecondaryEvent returns: the promise
is pending, the single-use listener has been added, the timeout is armed. -/
def initialWaitState : WaitState :=
  { disposition := none, listenerRegistered := true, timeoutActive := true }

/-- Settling the event promise.  Fluid promises run their then-handlers on
settlement; generateSingleUseEventListener registered removeListener on both
branches and addPromiseTimeout registered clearPromiseTimeout on both
branches, so settlement removes the listener and clears the timeout. -/
def settleWait (d : WaitDisposition) : WaitState :=
  { disposition := some d, listenerRegistered := false, timeoutActive := false }

/-- The external stimuli that can act on a wrapped secondary event. -/
inductive WaitAction where
  | eventFired (args : List String)
  | timeoutFired
  | externalResolve (payload : Option (List String))
  | externalReject (error : String)

/-- One step of the wrapped secondary event.  The event handler only runs
while the single-use listener is registered; the setTimeout handler only runs
while the timeout has not fired and has not been cleared; external
settlement only applies to a pending promise.  Guard failure (none) means the
stimulus has no effect path in the code. -/
def waitStep (s : WaitState) : WaitAction → Option WaitState
  | WaitAction.eventFired args =>
      if s.listenerRegistered then some (settleWait (WaitDisposition.resolved (some args))) else none
  | WaitAction.timeoutFired =>
      if s.timeoutActive then some (settleWait (WaitDisposition.resolved none)) else none
  | WaitAction.externalResolve payload =>
      if s.disposition = none then some (settleWait (WaitDisposition.resolved payload)) else none
  | WaitAction.externalReject error =>
      if s.disposition = none then some (settleWait (WaitDisposition.rejected error)) else none

/-- States reachable from the initial wrapSecondaryEvent state. -/
inductive WaitReachable : WaitState → Prop where
  | init : WaitReachable initialWaitState
  | step {s s2 : WaitState} {a : WaitAction} :
      WaitReachable s → waitStep s a = some s2 → WaitReachable s2

/- ===================================================================
   Cleanup: gpii.testem.generateRimrafWrapper / cleanupTestemContent /
   cleanupDir / cleanup  (testem-component.js 128-267)
   =================================================================== -/

/-- A cleanup definition as documented at testem-component.js 185-191. -/
structure CleanupDef where
  name : String
  path : String
  isTestemContent : Bool
deriving DecidableEq

/-- Environment of total functions modelling the filesystem-facing
collaborators of the cleanup code: fluid.module.resolvePath (total on the
already-expanded option paths it receives here),
gpii.testem.resolveFluidModulePathSafely (which may throw, modelled as
Except), fs.existsSync, rimraf (some error message when the removal calls
back with an error, none on success), os.tmpdir() and its directory listing
fs.readdirSync(os.tmpdir()). -/
structure FsEnv where
  resolvePath : String → String
  resolveFluidModulePathSafely : String → Except String String
  existsSync : String → Bool
  rimrafError : String → Option String
  tmpdir : String
  tmpdirFiles : List String

/-- Drops a literal character sequence from the head of a list, returning the
remainder when the literal is present. -/
def dropLit : List Char → List Char → Option (List Char)
  | [], s => some s
  | _ :: _, [] => none
  | a :: as, b :: bs => if a = b then dropLit as bs else none

/-- The regular expression Temp-.+ anchored at the start (testem-component.js
162): the name starts with Temp- followed by at least one character. -/
def matchesTestemTempName (s : String) : Bool :=
  match dropLit ("Temp-".toList) s.toList with
  | some (_ :: _) => true
  | some [] => false
  | none => false

/-- True when the path is absolute (POSIX model, as used on the paths in this
development). -/
def isAbsolute (p : String) : Bool :=
  match p.toList with
  | '/' :: _ => true
  | _ => false

/-- Node path.resolve of a base directory and one further segment (POSIX
model, without dot-segment normalization, which the embedded paths do not
use). -/
def pathResolve (base p : String) : String :=
  if isAbsolute p then p else base ++ "/" ++ p

/-- Embeds fluid.promise.sequence over the rimraf wrappers produced by
gpii.testem.generateRimrafWrapper (testem-component.js 128-141): the removals
run in order and the first rimraf error rejects the sequence, as the wrapper
rejects its promise on a rimraf error. -/
def rimrafSequence (rimrafError : String → Option String) : List String → Disposition
  | [] => Disposition.resolved
  | p :: rest =>
      match rimrafError p with
      | some e => Disposition.rejected e
      | none => rimrafSequence rimrafError rest

/-- Embeds gpii.testem.cleanupTestemContent (testem-component.js 152-181):
resolve the path safely (a throw is caught and rejects the returned promise),
build rimraf wrappers for the resolved path and for every Temp-* entry of the
system temp directory, and run them as a sequence whose resolution resolves
the returned promise and whose rejection rejects it (togo.reject). -/
def cleanupTestemContent (env : FsEnv) (pathToCleanup : String) :
    Disposition × List LogEntry :=
  match env.resolveFluidModulePathSafely pathToCleanup with
  | Except.error e => (Disposition.rejected e, [])
  | Except.ok resolvedPath =>
      let tmpTargets := (env.tmpdirFiles.filter matchesTestemTempName).map (pathResolve env.tmpdir)
      (rimrafSequence env.rimrafError (resolvedPath :: tmpTargets), [])

/-- Embeds gpii.testem.cleanupDir (testem-component.js 197-230): resolve the
definition path; Testem-content definitions delegate to cleanupTestemContent;
otherwise a missing path logs and resolves, a rimraf error is logged at
warning level and the promise is still resolved, and a successful removal is
logged and resolved.  (The try/catch around the non-Testem branch also
converts a thrown error into a warning log plus resolution; the environment
functions here are total, so that branch carries no separate case.) -/
def cleanupDir (env : FsEnv) (d : CleanupDef) : Disposition × List LogEntry :=
  let resolvedPath := env.resolvePath d.path
  if d.isTestemContent then
    cleanupTestemContent env resolvedPath
  else
    if env.existsSync resolvedPath then
      match env.rimrafError resolvedPath with
      | some e =>
          (Disposition.resolved,
           [{ level := LogLevel.warn, message := "Error removing " ++ d.name ++ " content:" ++ e }])
      | none =>
          (Disposition.resolved,
           [{ level := LogLevel.info, message := "Removed " ++ d.name ++ " content..." }])
    else
      (Disposition.resolved,
       [{ level := LogLevel.info, message := "No content exists for " ++ d.name ++ ", skipping cleanup..." }])

/-- Embeds fluid.promise.sequence over the cleanupDir tasks of one cleanup
stage (testem-component.js 257-264): the definitions run in order and the
first rejected entry rejects the sequence. -/
def cleanupSeq (env : FsEnv) : List CleanupDef → Disposition × List LogEntry
  | [] => (Disposition.resolved, [])
  | d :: rest =>
      let r := cleanupDir env d
      match r.1 with
      | Disposition.rejected e => (Disposition.rejected e, r.2)
      | Disposition.resolved =>
          let r2 := cleanupSeq env rest
          (r2.1, r.2 ++ r2.2)

/-- Embeds gpii.testem.cleanup (testem-component.js 248-267): run the stage
sequence, forward its settlement to the returned promise, and log the stage
outcome through the then-handlers registered on the returned promise. -/
def cleanup (stage : String) (defs : List CleanupDef) (env : FsEnv) :
    Disposition × List LogEntry :=
  let r := cleanupSeq env defs
  match r.1 with
  | Disposition.resolved =>
      (Disposition.resolved,
       r.2 ++ [{ level := LogLevel.info, message := stage ++ " cleanup completed successfully..." }])
  | Disposition.rejected e =>
      (Disposition.rejected e,
       r.2 ++ [{ level := LogLevel.info, message := "Cleanup failed:" ++ e }])

/- ===================================================================
   gpii.testem.generateUniqueDirName  (testem-component.js 278-286)
   and the directory option expanders (382-393, 598-610, 642-647)
   =================================================================== -/

/-- Embeds gpii.testem.generateUniqueDirName (testem-component.js 278-286):
resolve the base path safely; on success return the resolved base joined with
prefix-suffix; a thrown resolution error is caught and logged and the
function falls through, returning undefined (modelled as none). -/
def generateUniqueDirName (env : FsEnv) (basePath pfx sfx : String) :
    Option String × List LogEntry :=
  match env.resolveFluidModulePathSafely basePath with
  | Except.ok resolvedBasePath =>
      (some (pathResolve resolvedBasePath (pfx ++ "-" ++ sfx)), [])
  | Except.error e =>
      (none, [{ level := LogLevel.info, message := "Error generating unique dir name:" ++ e }])

/-- The testemDir option expander of gpii.testem.base (testem-component.js
382-387): generateUniqueDirName(os.tmpdir(), "user_data_dir", that.id). -/
def testemDirOption (env : FsEnv) (componentId : String) : Option String :=
  (generateUniqueDirName env env.tmpdir "user_data_dir" componentId).1

/-- The reportsDir option expander of gpii.testem.base (testem-component.js
388-393): generateUniqueDirName(os.tmpdir(), "reports", that.id). -/
def reportsDirOption (env : FsEnv) (componentId : String) : Option String :=
  (generateUniqueDirName env env.tmpdir "reports" componentId).1

/-- The coverageDir option expander of gpii.testem.coverage
(testem-component.js 598-603): generateUniqueDirName(os.tmpdir(), "coverage",
that.id). -/
def coverageDirOption (env : FsEnv) (componentId : String) : Option String :=
  (generateUniqueDirName env env.tmpdir "coverage" componentId).1

/-- The instrumentedSourceDir option expander (testem-component.js 605-610
and 642-647): generateUniqueDirName(os.tmpdir(), "instrumented", that.id). -/
def instrumentedSourceDirOption (env : FsEnv) (componentId : String) : Option String :=
  (generateUniqueDirName env env.tmpdir "instrumented" componentId).1

/- ===================================================================
   gpii.testem.coverage.receiver.uaMatch
   (coverageReceiverMiddleware.js 18-31)

   The JavaScript regular expressions are embedded directly over lists of
   characters with JS exec semantics: leftmost match position wins, greedy
   and lazy repetitions backtrack, and the dot does not match a newline.
   =================================================================== -/

/-- The JS character class [\w.]: ASCII word characters or a dot. -/
def wordDotChar (c : Char) : Bool :=
  c.isAlphanum || c = '_' || c = '.'

/-- The character class [ \/] used by the chrome, webkit and opera patterns. -/
def sepSpaceSlash (c : Char) : Bool :=
  c = ' ' || c = '/'

/-- Matches sep([\w.]+) at the head of the list: one separator character
accepted by sep, then a maximal nonempty run of word-or-dot characters,
returning the captured run. -/
def sepVersionAt (sep : Char → Bool) : List Char → Option (List Char)
  | [] => none
  | c :: rest =>
      if sep c then
        match rest.takeWhile wordDotChar with
        | [] => none
        | v => some v
      else none

/-- Matches a literal followed by sep([\w.]+) at the head of the list,
returning the captured version run. -/
def litSepVersionAt (lit : List Char) (sep : Char → Bool) (s : List Char) :
    Option (List Char) :=
  match dropLit lit s with
  | some after => sepVersionAt sep after
  | none => none

/-- JS exec position scan: try the pattern at every position from the left,
first successful position wins. -/
def scanFirst {α : Type} (tryAt : List Char → Option α) : List Char → Option α
  | [] => tryAt []
  | c :: rest =>
      match tryAt (c :: rest) with
      | some r => some r
      | none => scanFirst tryAt rest

/-- The tail of the opera pattern after the opera literal, first alternative:
greedy .*version[ \/]([\w.]+).  The greedy dot-star prefers the rightmost
version literal whose continuation matches; the gap may not contain a
newline. -/
def operaVersionTail : List Char → Option (List Char)
  | [] => none
  | c :: rest =>
      let deeper := if c = '\n' then none else operaVersionTail rest
      match deeper with
      | some v => some v
      | none => litSepVersionAt ("version".toList) sepSpaceSlash (c :: rest)

/-- Attempts the pattern (opera)(?:.*version|)[ \/]([\w.]+) at one position:
the opera literal, then either the greedy version alternative or the empty
alternative followed directly by the separator and version run. -/
def operaAt (s : List Char) : Option (List Char) :=
  match dropLit ("opera".toList) s with
  | none => none
  | some after =>
      match operaVersionTail after with
      | some v => some v
      | none => sepVersionAt sepSpaceSlash after

/-- The tail of the mozilla pattern after the mozilla literal, first
alternative: lazy .*? rv:([\w.]+).  The lazy dot-star prefers the leftmost
rv: whose capture is nonempty; the gap may not contain a newline. -/
def mozillaRvTail : List Char → Option (List Char)
  | [] => none
  | c :: rest =>
      let here :=
        match dropLit (" rv:".toList) (c :: rest) with
        | some afterRv =>
            match afterRv.takeWhile wordDotChar with
            | [] => none
            | v => some v
        | none => none
      match here with
      | some v => some v
      | none => if c = '\n' then none else mozillaRvTail rest

/-- Attempts the pattern (mozilla)(?:.*? rv:([\w.]+)|) at one position: once
the mozilla literal matches, the whole pattern matches (the second
alternative is empty); the result carries the rv capture when the first
alternative matched, none for an undefined second group. -/
def mozillaAt (s : List Char) : Option (Option (List Char)) :=
  match dropLit ("mozilla".toList) s with
  | none => none
  | some after => some (mozillaRvTail after)

/-- Substring test (String.indexOf on the lowercased user agent). -/
def containsSub (pat : List Char) : List Char → Bool
  | [] => (dropLit pat []).isSome
  | c :: rest => (dropLit pat (c :: rest)).isSome || containsSub pat rest

/-- The browser identity returned by uaMatch. -/
structure Browser where
  name : String
  version : String
deriving DecidableEq

/-- JavaScript String.toLowerCase over the ASCII user agents considered
here. -/
def lowerList (ua : String) : List Char :=
  ua.toList.map Char.toLower

/-- Embeds gpii.testem.coverage.receiver.uaMatch
(coverageReceiverMiddleware.js 18-31): lowercase the user agent, then try in
order the chrome, webkit, opera and msie patterns, then - only when the
string does not contain compatible - the generic mozilla pattern; the first
successful exec supplies the name and version captures, and with no match
the fallbacks unknown and 0 apply. -/
def uaMatch (ua : String) : Browser :=
  let l := lowerList ua
  match scanFirst (litSepVersionAt ("chrome".toList) sepSpaceSlash) l with
  | some v => { name := "chrome", version := String.mk v }
  | none =>
    match scanFirst (litSepVersionAt ("webkit".toList) sepSpaceSlash) l with
    | some v => { name := "webkit", version := String.mk v }
    | none =>
      match scanFirst operaAt l with
      | some v => { name := "opera", version := String.mk v }
      | none =>
        match scanFirst (litSepVersionAt ("msie".toList) (fun c => c = ' ')) l with
        | some v => { name := "msie", version := String.mk v }
        | none =>
          if containsSub ("compatible".toList) l then
            { name := "unknown", version := "0" }
          else
            match scanFirst mozillaAt l with
            | some (some v) => { name := "mozilla", version := String.mk v }
            | some none => { name := "mozilla", version := "0" }
            | none => { name := "unknown", version := "0" }

/-- The call uaMatch(fluid.get(body, "navigator.userAgent")) as it appears at
coverageReceiverMiddleware.js 42: when the payload lacks the field,
fluid.get yields undefined and the first line of uaMatch
(ua = ua.toLowerCase()) throws a TypeError, modelled as an Except error. -/
def uaMatchJs (ua : Option String) : Except String Browser :=
  match ua with
  | none => Except.error "TypeError: Cannot read property toLowerCase of undefined"
  | some s => Except.ok (uaMatch s)

/- ===================================================================
   gpii.testem.coverage.receiver.middlewareImpl
   (coverageReceiverMiddleware.js 37-58)
   =================================================================== -/

/-- Abstract JSON values, used for the coverage field of an upload.  The
call JSON.stringify(body.coverage, null, 2) followed by a later JSON.parse of
the written file round-trips to the same value, so file content is recorded
as the JSON value written. -/
inductive Json where
  | null
  | bool (b : Bool)
  | num (n : Int)
  | str (s : String)
  | arr (elems : List Json)
  | obj (fields : List (String × Json))

/-- The parsed upload payload as the handler reads it: fluid.get(body,
"navigator.userAgent"), fluid.get(body.document, "URL") - either may be
absent - and the coverage field. -/
structure UploadBody where
  userAgent : Option String
  url : Option String
  coverage : Json

/-- Environment of the middleware handler: the resolved coverage directory,
the component id, the value of Math.round(Math.random() * 10000), and the
outcome of fs.writeFile (an error message, or none on success). -/
structure MwEnv where
  coverageDir : String
  componentId : String
  randomInt : Nat
  writeError : Option String

/-- The HTTP response the handler sends. -/
structure MwResponse where
  status : Nat
  isError : Bool
  message : String
deriving DecidableEq

/-- The observable outcome of a successful (non-throwing) handler run: the
output path and filename, the JSON value written, and the response sent. -/
structure MwOutcome where
  filePath : String
  fileName : String
  fileContent : Json
  response : MwResponse

/-- JS list splitting on the slash character, as in testPath.split("/"). -/
def splitOnSlash : List Char → List (List Char)
  | [] => [[]]
  | c :: rest =>
      let r := splitOnSlash rest
      if c = '/' then [] :: r
      else
        match r with
        | [] => [[c]]
        | h :: t => (c :: h) :: t

/-- Last path segment: p.split("/").pop(). -/
def lastSegmentStr (p : String) : String :=
  String.mk ((splitOnSlash p.toList).getLastD [])

/-- The test filename computed at coverageReceiverMiddleware.js 44-45:
testPath ? testPath.split("/").pop() : "unknown".  An absent URL and - by JS
truthiness - an empty URL both fall back to unknown. -/
def testFilenameOf (url : Option String) : String :=
  match url with
  | none => "unknown"
  | some u => if u = "" then "unknown" else lastSegmentStr u

/-- The coverage filename composed at coverageReceiverMiddleware.js 47 by
joining the fragments with the empty separator. -/
def composeCoverageFilename (browser : Browser) (testFilename componentId : String)
    (randomInt : Nat) : String :=
  "coverage" ++ "-" ++ browser.name ++ "-" ++ browser.version ++ "-" ++ testFilename
    ++ "-" ++ componentId ++ "-" ++ Nat.repr randomInt ++ ".json"

/-- Node path.join of the coverage directory and the filename (POSIX model). -/
def pathJoin (base p : String) : String :=
  base ++ "/" ++ p

/-- The response branches of the fs.writeFile callback
(coverageReceiverMiddleware.js 50-57): status 500 with an isError payload on
a write error, status 200 with the success message otherwise. -/
def writeResponse (writeError : Option String) : MwResponse :=
  match writeError with
  | some e => { status := 500, isError := true, message := e }
  | none => { status := 200, isError := false,
              message := "You have successfully saved your coverage report." }

/-- Embeds gpii.testem.coverage.receiver.middlewareImpl
(coverageReceiverMiddleware.js 37-58): classify the user agent (throwing when
the field is absent), derive the test filename from the document URL with the
unknown fallback, compose the coverage filename, write the pretty-printed
coverage field to the joined output path, and send the response chosen by the
write outcome. -/
def middlewareImpl (env : MwEnv) (body : UploadBody) : Except String MwOutcome :=
  match uaMatchJs body.userAgent with
  | Except.error e => Except.error e
  | Except.ok browser =>
      let testFilename := testFilenameOf body.url
      let coverageFilename :=
        composeCoverageFilename browser testFilename env.componentId env.randomInt
      Except.ok
        { filePath := pathJoin env.coverageDir coverageFilename,
          fileName := coverageFilename,
          fileContent := body.coverage,
          response := writeResponse env.writeError }

/- ===================================================================
   gpii.testem.constructProxies  (testem-component.js 339-362)
   =================================================================== -/

/-- The proxy target record assigned for every proxy path:
proxies[dirPath] = { target: coverageUrl }. -/
structure Target where
  target : String
deriving DecidableEq

/-- A directory definition contributing to the proxy map: a file path, an
optional explicit mount override, and a declared priority. -/
structure DirDef where
  filePath : String
  routePath : Option String
  priority : Int
deriving DecidableEq

/-- Modelled from the spec: gpii.testem.expandPath is code of this repository
that is not under src/.  Per the spec a directory definition expands to an
absolute filePath (resolved by the PathResolver, passed here as the expand
function) while keeping its mount override and declared priority. -/
def expandPath (expand : String → String) (d : DirDef) : DirDef :=
  { filePath := expand d.filePath, routePath := d.routePath, priority := d.priority }

/-- Stable insertion into a priority-ordered list: the new definition goes
before the first entry of strictly greater or equal priority it precedes in
declaration order, so ties preserve declaration order. -/
def insertByPriority (d : DirDef) : List DirDef → List DirDef
  | [] => [d]
  | e :: rest =>
      if d.priority ≤ e.priority then d :: e :: rest else e :: insertByPriority d rest

/-- Modelled from the spec: fluid.parsePriorityRecords (an external framework
collaborator) orders the directory definitions by their declared priorities
with ties preserving declaration order; embedded as a stable insertion
sort. -/
def parsePriorityRecords : List DirDef → List DirDef
  | [] => []
  | d :: rest => insertByPriority d (parsePriorityRecords rest)

/-- Modelled from the spec: gpii.testem.extractProxyPath is code of this
repository that is not under src/.  Per the spec each ordered entry
contributes one proxy path key derived from its mount segment - the last
path component of its expanded file path, or its explicit override. -/
def extractProxyPath (d : DirDef) : String :=
  match d.routePath with
  | some r => r
  | none => "/" ++ lastSegmentStr d.filePath

/-- The ordered list of proxy path keys pushed into dirPaths at
testem-component.js 342-353: the expanded and priority-ordered source
definitions, then the expanded and priority-ordered content definitions,
then each additional proxy path appended last. -/
def proxyDirPaths (expand : String → String) (sourceDirs contentDirs : List DirDef)
    (additionalProxies : List String) : List String :=
  ((parsePriorityRecords (sourceDirs.map (expandPath expand))).map extractProxyPath)
    ++ ((parsePriorityRecords (contentDirs.map (expandPath expand))).map extractProxyPath)
    ++ additionalProxies

/-- JS object property assignment proxies[k] = v: an existing key keeps its
position and receives the new value (last write wins), a new key is appended
in insertion order. -/
def objSet : List (String × Target) → String → Target → List (String × Target)
  | [], k, v => [(k, v)]
  | kv :: rest, k, v =>
      if kv.1 = k then (kv.1, v) :: rest else kv :: objSet rest k v

/-- The keys of the proxy object in property order. -/
def objKeys (m : List (String × Target)) : List String :=
  m.map Prod.fst

/-- JS object property lookup. -/
def objLookup : List (String × Target) → String → Option Target
  | [], _ => none
  | kv :: rest, k => if kv.1 = k then some kv.2 else objLookup rest k

/-- Embeds gpii.testem.constructProxies (testem-component.js 339-362): build
the ordered dirPaths list and assign each path the target record for the
coverage URL into an initially empty proxies object. -/
def constructProxies (expand : String → String) (sourceDirs contentDirs : List DirDef)
    (additionalProxies : List String) (coverageUrl : String) : List (String × Target) :=
  (proxyDirPaths expand sourceDirs contentDirs additionalProxies).foldl
    (fun m p => objSet m p { target := coverageUrl }) []

/- ===================================================================
   gpii.testem.coverage.instrumentSource  (testem-component.js 545-571)
   =================================================================== -/

/-- One configured source directory definition as consumed by
instrumentSource (its expanded file path). -/
structure SourcePathDef where
  filePath : String
deriving DecidableEq

/-- Modelled from the spec: gpii.testem.resolvePackageOrCwdRelativePath is
code of this repository that is not under src/.  Per the spec the
PathResolver resolves package- or cwd-relative paths against the supplied
base and leaves absolute paths alone. -/
def resolvePackageOrCwdRelativePath (base p : String) : String :=
  if isAbsolute p then p else base ++ "/" ++ p

/-- Modelled from the spec: gpii.testem.extractLastContentSegment is code of
this repository that is not under src/.  Per the spec each source directory
derives a mount segment that is the last component of its file path. -/
def extractLastContentSegment (d : SourcePathDef) : String :=
  lastSegmentStr d.filePath

/-- Environment of instrumentSource: the cwd and instrumentedSourceDir
options, fluid.module.resolvePath, and the external instrumenter
gpii.testem.instrumenter.instrument as a function from resolved source and
destination paths to a settled outcome. -/
structure InstrumentEnv where
  cwd : String
  instrumentedSourceDir : String
  resolveModulePath : String → String
  instrument : String → String → Except String Unit

/-- The resolved source path computed for one definition at
testem-component.js 553. -/
def instrumentSourcePath (env : InstrumentEnv) (d : SourcePathDef) : String :=
  resolvePackageOrCwdRelativePath (env.resolveModulePath env.cwd) d.filePath

/-- The instrumented destination path computed for one definition at
testem-component.js 555-556. -/
def instrumentDestPath (env : InstrumentEnv) (d : SourcePathDef) : String :=
  resolvePackageOrCwdRelativePath (env.resolveModulePath env.instrumentedSourceDir)
    (extractLastContentSegment d)

/-- Embeds gpii.testem.coverage.instrumentSource (testem-component.js
545-571) as the fluid.promise.sequence over the per-directory instrument
tasks: each task runs only after the previous settled successfully, the
first instrumentation error rejects the sequence (which the rejection
handler logs at FAIL level before the rejection propagates), and the second
component of the result records which source paths were actually passed to
the instrumenter, in order. -/
def instrumentSource (env : InstrumentEnv) :
    List SourcePathDef → Except String Unit × List String
  | [] => (Except.ok (), [])
  | d :: rest =>
      match env.instrument (instrumentSourcePath env d) (instrumentDestPath env d) with
      | Except.error e => (Except.error e, [instrumentSourcePath env d])
      | Except.ok _ =>
          let r := instrumentSource env rest
          (r.1, instrumentSourcePath env d :: r.2)

/- ===================================================================
   Helper lemmas
   =================================================================== -/

/-- String concatenation is associative (via the underlying character
lists). -/
theorem stringAppendAssoc (a b c : String) : a ++ b ++ c = a ++ (b ++ c) := by
  cases a with
  | mk la =>
    cases b with
    | mk lb =>
      cases c with
      | mk lc =>
        show String.mk (la ++ lb ++ lc) = String.mk (la ++ (lb ++ lc))
        rw [List.append_assoc]

/-- Any successful step of the wrapped secondary event settles the promise
through settleWait, which removes the listener and clears the timeout. -/
theorem waitStep_settles {s s2 : WaitState} {a : WaitAction}
    (h : waitStep s a = some s2) :
    s2.listenerRegistered = false ∧ s2.timeoutActive = false := by
  cases a <;> simp only [waitStep] at h <;> split at h <;>
    simp only [Option.some.injEq, reduceCtorEq] at h <;>
    rw [← h] <;> exact ⟨rfl, rfl⟩

/-- A non-Testem-content cleanup definition always resolves. -/
theorem cleanupDir_resolved_of_not_testem (env : FsEnv) (d : CleanupDef)
    (h : d.isTestemContent = false) :
    (cleanupDir env d).1 = Disposition.resolved := by
  simp only [cleanupDir, h, Bool.false_eq_true, if_false]
  split
  · split <;> rfl
  · rfl

/-- A cleanup stage consisting only of non-Testem-content definitions has a
resolved sequence. -/
theorem cleanupSeq_resolved_of_all_not_testem (env : FsEnv) (defs : List CleanupDef)
    (h : ∀ d ∈ defs, d.isTestemContent = false) :
    (cleanupSeq env defs).1 = Disposition.resolved := by
  induction defs with
  | nil => rfl
  | cons d rest ih =>
    have hd := cleanupDir_resolved_of_not_testem env d (h d (by simp))
    have hr := ih (fun d2 hm => h d2 (by simp [hm]))
    simp only [cleanupSeq]
    rw [hd]
    simpa using hr

/-- The disposition of a cleanup stage is the disposition of its sequence. -/
theorem cleanup_fst (stage : String) (defs : List CleanupDef) (env : FsEnv) :
    (cleanup stage defs env).1 = (cleanupSeq env defs).1 := by
  simp only [cleanup]
  cases h : (cleanupSeq env defs).1 <;> simp [h]

/- ===================================================================
   Claim theorems
   =================================================================== -/

/-- C1: for every invocation of the lifecycle entry points
(handleTestemLifecycleEvent, wired as handleTestemStart / handleTestemExit),
once the transform chain fired for the root event settles - whether it
resolves or rejects - the supplied Testem callback is invoked exactly once;
no listener failure anywhere in the chain prevents, duplicates, or throws
past the callback invocation. -/
theorem handleTestemLifecycleEvent_callback_exactly_once
    (listeners : List (Option String → Except String (Option String)))
    (payload : Option String) :
    callbackCount (handleTestemLifecycleEvent listeners payload) = 1 := by
  simp only [handleTestemLifecycleEvent]
  cases fireTransformEvent listeners payload <;> rfl

/-- C2: for every timeout-guarded secondary-event wait, firing the timeout in
the initial state resolves the event promise with no payload (it neither
rejects nor leaves the promise pending), and in every settlement path of the
wait - event fired first, timeout fired first, or external
resolution/rejection - the single-use event listener registered for the
event has been removed (and the timeout cleared). -/
theorem wrapSecondaryEvent_timeout_resolves_listener_removed :
    waitStep initialWaitState WaitAction.timeoutFired =
      some { disposition := some (WaitDisposition.resolved none),
             listenerRegistered := false, timeoutActive := false } ∧
    ∀ s : WaitState, WaitReachable s → s.disposition.isSome = true →
      s.listenerRegistered = false ∧ s.timeoutActive = false := by
  constructor
  · rfl
  · intro s hreach
    induction hreach with
    | init => intro hsome; simp [initialWaitState] at hsome
    | step hr hstep ih => intro _; exact waitStep_settles hstep

/-- C2 witness: the timeout step from the initial state reaches a settled
state, and that reachable settled state has its listener removed and its
timeout cleared. -/
theorem wrapSecondaryEvent_timeout_witness :
    ({ disposition := some (WaitDisposition.resolved none),
       listenerRegistered := false, timeoutActive := false } : WaitState).listenerRegistered = false ∧
    ({ disposition := some (WaitDisposition.resolved none),
       listenerRegistered := false, timeoutActive := false } : WaitState).timeoutActive = false :=
  wrapSecondaryEvent_timeout_resolves_listener_removed.2
    { disposition := some (WaitDisposition.resolved none),
      listenerRegistered := false, timeoutActive := false }
    (WaitReachable.step WaitReachable.init
      wrapSecondaryEvent_timeout_resolves_listener_removed.1)
    rfl

/-- A concrete environment for the Testem-content removal failure: every path
resolves to itself and safely, the directory exists, and rimraf reports
EACCES for the Testem directory only. -/
def cleanupCexEnv : FsEnv :=
  { resolvePath := fun p => p,
    resolveFluidModulePathSafely := fun p => Except.ok p,
    existsSync := fun _ => true,
    rimrafError := fun p => if p = "/tmp/testem-dir" then some "EACCES" else none,
    tmpdir := "/tmp",
    tmpdirFiles := [] }

/-- C3 counterexample: with a definition whose isTestemContent is set, path
resolution succeeds, yet the stage promise is rejected because the removal
operation errored - contradicting the claim that every individual
directory-removal failure, including for Testem-content definitions, is
treated as success and that the stage rejects only on a path-resolution
exception. -/
theorem cleanup_testemContent_removal_rejects_cex :
    cleanupCexEnv.resolveFluidModulePathSafely "/tmp/testem-dir" = Except.ok "/tmp/testem-dir" ∧
    (cleanup "Final" [{ name := "testem", path := "/tmp/testem-dir", isTestemContent := true }]
        cleanupCexEnv).1 = Disposition.rejected "EACCES" := by
  exact ⟨rfl, by decide⟩

/-- C3 amended: for non-Testem-content cleanup definitions each individual
removal failure is caught, logged at warning level and treated as success,
and a stage whose definitions are all non-Testem-content always resolves;
but for definitions with isTestemContent set a removal failure is not
absorbed: cleanupTestemContent rejects its promise, so the stage promise
rejects both on an unexpected exception during path resolution and on a
removal error under a Testem-content entry. -/
theorem cleanup_error_policy_amended :
    (∀ (env : FsEnv) (d : CleanupDef), d.isTestemContent = false →
        (cleanupDir env d).1 = Disposition.resolved) ∧
    (∀ (env : FsEnv) (d : CleanupDef) (e : String), d.isTestemContent = false →
        env.existsSync (env.resolvePath d.path) = true →
        env.rimrafError (env.resolvePath d.path) = some e →
        cleanupDir env d = (Disposition.resolved,
          [{ level := LogLevel.warn,
             message := "Error removing " ++ d.name ++ " content:" ++ e }])) ∧
    (∀ (env : FsEnv) (stage : String) (defs : List CleanupDef),
        (∀ d ∈ defs, d.isTestemContent = false) →
        (cleanup stage defs env).1 = Disposition.resolved) ∧
    (∀ (env : FsEnv) (stage : String) (d : CleanupDef) (rp e : String),
        d.isTestemContent = true →
        env.resolveFluidModulePathSafely (env.resolvePath d.path) = Except.ok rp →
        env.rimrafError rp = some e →
        (cleanup stage [d] env).1 = Disposition.rejected e) := by
  refine ⟨cleanupDir_resolved_of_not_testem, ?_, ?_, ?_⟩
  · intro env d e h1 h2 h3
    simp only [cleanupDir, h1, Bool.false_eq_true, if_false, h2, if_true, h3]
  · intro env stage defs h
    rw [cleanup_fst]
    exact cleanupSeq_resolved_of_all_not_testem env defs h
  · intro env stage d rp e h1 h2 h3
    rw [cleanup_fst]
    simp only [cleanupSeq, cleanupDir, h1, if_true, cleanupTestemContent, h2,
      List.filter_nil, List.map_nil, rimrafSequence, h3]

/-- A concrete environment in which a non-Testem-content removal errors. -/
def cleanupWarnEnv : FsEnv :=
  { resolvePath := fun p => p,
    resolveFluidModulePathSafely := fun p => Except.ok p,
    existsSync := fun _ => true,
    rimrafError := fun _ => some "EPERM",
    tmpdir := "/tmp",
    tmpdirFiles := [] }

/-- C3 witness: a concrete non-Testem-content removal failure is logged at
warning level and resolved, and a concrete Testem-content removal failure
rejects its stage. -/
theorem cleanup_error_policy_witness :
    cleanupDir cleanupWarnEnv { name := "instrumented", path := "/tmp/instr", isTestemContent := false }
      = (Disposition.resolved,
         [{ level := LogLevel.warn,
            message := "Error removing " ++ "instrumented" ++ " content:" ++ "EPERM" }]) ∧
    (cleanup "Initial" [{ name := "testem", path := "/tmp/testem-dir", isTestemContent := true }]
        cleanupCexEnv).1 = Disposition.rejected "EACCES" := by
  constructor
  · exact cleanup_error_policy_amended.2.1 cleanupWarnEnv
      { name := "instrumented", path := "/tmp/instr", isTestemContent := false } "EPERM" rfl rfl rfl
  · exact cleanup_error_policy_amended.2.2.2 cleanupCexEnv "Initial"
      { name := "testem", path := "/tmp/testem-dir", isTestemContent := true }
      "/tmp/testem-dir" "EACCES" rfl rfl (by decide)

/-- C9: for every cleanup stage and every non-Testem-content cleanup
definition whose resolved path does not exist on the filesystem, cleanupDir
logs the skip message and resolves that entry as a success, and a stage made
of such (non-Testem-content) definitions still reports overall success. -/
theorem cleanupDir_missing_path_success (env : FsEnv) (d : CleanupDef)
    (h1 : d.isTestemContent = false)
    (h2 : env.existsSync (env.resolvePath d.path) = false) :
    cleanupDir env d = (Disposition.resolved,
      [{ level := LogLevel.info,
         message := "No content exists for " ++ d.name ++ ", skipping cleanup..." }]) ∧
    ∀ (stage : String) (defs : List CleanupDef),
      (∀ d2 ∈ defs, d2.isTestemContent = false) →
      (cleanup stage defs env).1 = Disposition.resolved := by
  constructor
  · simp only [cleanupDir, h1, Bool.false_eq_true, if_false, h2]
  · intro stage defs h
    rw [cleanup_fst]
    exact cleanupSeq_resolved_of_all_not_testem env defs h

/-- A concrete environment in which no cleanup target exists. -/
def cleanupMissingEnv : FsEnv :=
  { resolvePath := fun p => p,
    resolveFluidModulePathSafely := fun p => Except.ok p,
    existsSync := fun _ => false,
    rimrafError := fun _ => none,
    tmpdir := "/tmp",
    tmpdirFiles := [] }

/-- C9 witness: a concrete missing coverage directory is skipped with a log
line and its stage resolves. -/
theorem cleanupDir_missing_path_success_witness :
    cleanupDir cleanupMissingEnv { name := "coverage", path := "/tmp/coverage", isTestemContent := false }
      = (Disposition.resolved,
         [{ level := LogLevel.info,
            message := "No content exists for " ++ "coverage" ++ ", skipping cleanup..." }]) ∧
    (cleanup "Initial" [{ name := "coverage", path := "/tmp/coverage", isTestemContent := false }]
        cleanupMissingEnv).1 = Disposition.resolved := by
  have h := cleanupDir_missing_path_success cleanupMissingEnv
    { name := "coverage", path := "/tmp/coverage", isTestemContent := false } rfl rfl
  exact ⟨h.1, h.2 "Initial" _ (by decide)⟩

/-- C10: if resolving the base path throws inside generateUniqueDirName, the
error is caught and logged and the function returns undefined (none) instead
of a path string or an exception; consequently each directory option built
from it (testemDir, reportsDir, coverageDir, instrumentedSourceDir) is
silently undefined when resolving the system temp directory throws. -/
theorem generateUniqueDirName_catches_returns_none (env : FsEnv)
    (basePath pfx sfx e : String)
    (h : env.resolveFluidModulePathSafely basePath = Except.error e) :
    generateUniqueDirName env basePath pfx sfx =
      (none, [{ level := LogLevel.info,
                message := "Error generating unique dir name:" ++ e }]) ∧
    (∀ rp : String, env.resolveFluidModulePathSafely basePath = Except.ok rp → False) ∧
    ∀ (componentId e2 : String),
      env.resolveFluidModulePathSafely env.tmpdir = Except.error e2 →
      testemDirOption env componentId = none ∧
      reportsDirOption env componentId = none ∧
      coverageDirOption env componentId = none ∧
      instrumentedSourceDirOption env componentId = none := by
  refine ⟨?_, ?_, ?_⟩
  · simp only [generateUniqueDirName, h]
  · intro rp hok
    rw [h] at hok
    exact Except.noConfusion hok
  · intro componentId e2 h2
    simp [testemDirOption, reportsDirOption, coverageDirOption,
      instrumentedSourceDirOption, generateUniqueDirName, h2]

/-- A concrete environment in which resolving any base path throws. -/
def resolveFailEnv : FsEnv :=
  { resolvePath := fun p => p,
    resolveFluidModulePathSafely := fun _ => Except.error "Module not found",
    existsSync := fun _ => false,
    rimrafError := fun _ => none,
    tmpdir := "/tmp",
    tmpdirFiles := [] }

/-- C10 witness: with a concrete throwing resolver, generateUniqueDirName
returns none with a log entry and all four directory options are none. -/
theorem generateUniqueDirName_catches_witness :
    generateUniqueDirName resolveFailEnv "/tmp" "user_data_dir" "id1" =
      (none, [{ level := LogLevel.info,
                message := "Error generating unique dir name:" ++ "Module not found" }]) ∧
    (testemDirOption resolveFailEnv "id1" = none ∧
     reportsDirOption resolveFailEnv "id1" = none ∧
     coverageDirOption resolveFailEnv "id1" = none ∧
     instrumentedSourceDirOption resolveFailEnv "id1" = none) := by
  have h := generateUniqueDirName_catches_returns_none resolveFailEnv
    "/tmp" "user_data_dir" "id1" "Module not found" rfl
  exact ⟨h.1, h.2.2 "id1" "Module not found" rfl⟩

/-- A concrete middleware environment for the coverage receiver. -/
def mwCexEnv : MwEnv :=
  { coverageDir := "/tmp/coverage", componentId := "id1", randomInt := 42, writeError := none }

/-- C4 counterexample: an upload whose parsed payload lacks
navigator.userAgent makes the receiver handler raise a TypeError (uaMatch
dereferences the undefined value), rather than yielding the fallback browser
identity and composing a filename - contradicting the claim that the handler
does not raise for such payloads. -/
theorem middleware_missing_userAgent_raises_cex :
    middlewareImpl mwCexEnv
      { userAgent := none, url := some "http://x/tests/foo.html", coverage := Json.obj [] }
      = Except.error "TypeError: Cannot read property toLowerCase of undefined" := rfl

/-- C4 amended: an upload lacking document.URL is tolerated - the test
filename falls back to unknown and the handler still composes a filename,
writes the file and sends the response chosen by the write outcome - but an
upload lacking navigator.userAgent makes the handler throw a TypeError (from
calling toLowerCase on undefined) before any filename is composed, file
written or response sent; it does not yield the fallback identity. -/
theorem middleware_missing_fields_amended :
    (∀ (env : MwEnv) (body : UploadBody) (ua : String),
        body.userAgent = some ua → body.url = none →
        middlewareImpl env body = Except.ok
          { filePath := pathJoin env.coverageDir
              (composeCoverageFilename (uaMatch ua) "unknown" env.componentId env.randomInt),
            fileName := composeCoverageFilename (uaMatch ua) "unknown" env.componentId env.randomInt,
            fileContent := body.coverage,
            response := writeResponse env.writeError }) ∧
    (∀ (env : MwEnv) (body : UploadBody), body.userAgent = none →
        middlewareImpl env body =
          Except.error "TypeError: Cannot read property toLowerCase of undefined") := by
  constructor
  · intro env body ua h1 h2
    simp only [middlewareImpl, uaMatchJs, h1, testFilenameOf, h2]
  · intro env body h1
    simp only [middlewareImpl, uaMatchJs, h1]

/-- C4 witness: concrete instances of both amended branches. -/
theorem middleware_missing_fields_witness :
    middlewareImpl mwCexEnv { userAgent := some "SomeBot/1.0", url := none, coverage := Json.null }
      = Except.ok
          { filePath := pathJoin mwCexEnv.coverageDir
              (composeCoverageFilename (uaMatch "SomeBot/1.0") "unknown"
                mwCexEnv.componentId mwCexEnv.randomInt),
            fileName := composeCoverageFilename (uaMatch "SomeBot/1.0") "unknown"
              mwCexEnv.componentId mwCexEnv.randomInt,
            fileContent := Json.null,
            response := writeResponse mwCexEnv.writeError } ∧
    middlewareImpl mwCexEnv { userAgent := none, url := none, coverage := Json.null }
      = Except.error "TypeError: Cannot read property toLowerCase of undefined" := by
  constructor
  · exact middleware_missing_fields_amended.1 mwCexEnv
      { userAgent := some "SomeBot/1.0", url := none, coverage := Json.null } "SomeBot/1.0" rfl rfl
  · exact middleware_missing_fields_amended.2 mwCexEnv
      { userAgent := none, url := none, coverage := Json.null } rfl

/-- C5: uaMatch classifies a user-agent string by trying, in order, the
Chrome, WebKit, Opera, classic MSIE and generic Mozilla patterns (the
Mozilla pattern only when the lowercased string does not contain
compatible); the first match wins and unmatched input yields the unknown/0
identity; in particular the standard Chrome/91.0.4472.124 user agent yields
chrome 91.0.4472.124, the compatible MSIE 9.0 user agent yields msie 9.0,
and SomeBot/1.0 yields unknown 0. -/
theorem uaMatch_classification :
    (∀ (ua : String) (v : List Char),
        scanFirst (litSepVersionAt ("chrome".toList) sepSpaceSlash) (lowerList ua) = some v →
        uaMatch ua = { name := "chrome", version := String.mk v }) ∧
    (∀ (ua : String) (v : List Char),
        scanFirst (litSepVersionAt ("chrome".toList) sepSpaceSlash) (lowerList ua) = none →
        scanFirst (litSepVersionAt ("webkit".toList) sepSpaceSlash) (lowerList ua) = some v →
        uaMatch ua = { name := "webkit", version := String.mk v }) ∧
    (∀ (ua : String) (v : List Char),
        scanFirst (litSepVersionAt ("chrome".toList) sepSpaceSlash) (lowerList ua) = none →
        scanFirst (litSepVersionAt ("webkit".toList) sepSpaceSlash) (lowerList ua) = none →
        scanFirst operaAt (lowerList ua) = some v →
        uaMatch ua = { name := "opera", version := String.mk v }) ∧
    (∀ (ua : String) (v : List Char),
        scanFirst (litSepVersionAt ("chrome".toList) sepSpaceSlash) (lowerList ua) = none →
        scanFirst (litSepVersionAt ("webkit".toList) sepSpaceSlash) (lowerList ua) = none →
        scanFirst operaAt (lowerList ua) = none →
        scanFirst (litSepVersionAt ("msie".toList) (fun c => c = ' ')) (lowerList ua) = some v →
        uaMatch ua = { name := "msie", version := String.mk v }) ∧
    (∀ ua : String,
        scanFirst (litSepVersionAt ("chrome".toList) sepSpaceSlash) (lowerList ua) = none →
        scanFirst (litSepVersionAt ("webkit".toList) sepSpaceSlash) (lowerList ua) = none →
        scanFirst operaAt (lowerList ua) = none →
        scanFirst (litSepVersionAt ("msie".toList) (fun c => c = ' ')) (lowerList ua) = none →
        containsSub ("compatible".toList) (lowerList ua) = true →
        uaMatch ua = { name := "unknown", version := "0" }) ∧
    (∀ ua : String,
        scanFirst (litSepVersionAt ("chrome".toList) sepSpaceSlash) (lowerList ua) = none →
        scanFirst (litSepVersionAt ("webkit".toList) sepSpaceSlash) (lowerList ua) = none →
        scanFirst operaAt (lowerList ua) = none →
        scanFirst (litSepVersionAt ("msie".toList) (fun c => c = ' ')) (lowerList ua) = none →
        containsSub ("compatible".toList) (lowerList ua) = false →
        scanFirst mozillaAt (lowerList ua) = none →
        uaMatch ua = { name := "unknown", version := "0" }) ∧
    uaMatch "Mozilla/5.0 (X11; Linux x86_64) AppleWebKit/537.36 (KHTML, like Gecko) Chrome/91.0.4472.124 Safari/537.36"
      = { name := "chrome", version := "91.0.4472.124" } ∧
    uaMatch "Mozilla/5.0 (compatible; MSIE 9.0; Windows NT 6.1; Trident/5.0)"
      = { name := "msie", version := "9.0" } ∧
    uaMatch "SomeBot/1.0" = { name := "unknown", version := "0" } := by
  refine ⟨?_, ?_, ?_, ?_, ?_, ?_, by decide, by decide, by decide⟩
  · intro ua v h1
    simp only [uaMatch, h1]
  · intro ua v h1 h2
    simp only [uaMatch, h1, h2]
  · intro ua v h1 h2 h3
    simp only [uaMatch, h1, h2, h3]
  · intro ua v h1 h2 h3 h4
    simp only [uaMatch, h1, h2, h3, h4]
  · intro ua h1 h2 h3 h4 h5
    simp only [uaMatch, h1, h2, h3, h4, h5, if_true]
  · intro ua h1 h2 h3 h4 h5 h6
    simp only [uaMatch, h1, h2, h3, h4, h5, Bool.false_eq_true, if_false, h6]

/-- C5 witness: the first-match-wins conjuncts applied at concrete user
agents, discharging the pattern hypotheses by evaluation. -/
theorem uaMatch_classification_witness :
    uaMatch "Mozilla/5.0 (X11; Linux x86_64) AppleWebKit/537.36 (KHTML, like Gecko) Chrome/91.0.4472.124 Safari/537.36"
      = { name := "chrome", version := String.mk ("91.0.4472.124".toList) } ∧
    uaMatch "SomeBot/1.0" = { name := "unknown", version := "0" } := by
  constructor
  · exact uaMatch_classification.1
      "Mozilla/5.0 (X11; Linux x86_64) AppleWebKit/537.36 (KHTML, like Gecko) Chrome/91.0.4472.124 Safari/537.36"
      ("91.0.4472.124".toList) (by decide)
  · exact uaMatch_classification.2.2.2.2.2.1 "SomeBot/1.0"
      (by decide) (by decide) (by decide) (by decide) (by decide) (by decide)

/-- C6: for every coverage upload (a CoverageUpload per the spec data model,
so the user agent is present) whose document.URL carries a nonempty value
ending in a filename and whose coverage object is present, the receiver
writes exactly the payload coverage field (pretty-printed by the JSON
library) to a file in the configured coverage directory whose name contains
that filename, composed as
coverage-browserName-browserVersion-testFilename-componentId-randomInt.json,
and responds 200 with a success message when the write succeeds and 500 with
an isError payload when the write fails. -/
theorem middleware_writes_coverage_file (env : MwEnv) (body : UploadBody) (ua u : String)
    (h1 : body.userAgent = some ua) (h2 : body.url = some u) (h3 : ¬u = "") :
    middlewareImpl env body = Except.ok
      { filePath := pathJoin env.coverageDir
          (composeCoverageFilename (uaMatch ua) (lastSegmentStr u) env.componentId env.randomInt),
        fileName := composeCoverageFilename (uaMatch ua) (lastSegmentStr u) env.componentId env.randomInt,
        fileContent := body.coverage,
        response := writeResponse env.writeError } ∧
    (∃ front back : String,
        composeCoverageFilename (uaMatch ua) (lastSegmentStr u) env.componentId env.randomInt
          = front ++ lastSegmentStr u ++ back) ∧
    (env.writeError = none → writeResponse env.writeError =
        { status := 200, isError := false,
          message := "You have successfully saved your coverage report." }) ∧
    (∀ e : String, env.writeError = some e → writeResponse env.writeError =
        { status := 500, isError := true, message := e }) := by
  refine ⟨?_, ?_, ?_, ?_⟩
  · simp only [middlewareImpl, uaMatchJs, h1, testFilenameOf, h2, if_neg h3]
  · refine ⟨"coverage" ++ "-" ++ (uaMatch ua).name ++ "-" ++ (uaMatch ua).version ++ "-",
      "-" ++ env.componentId ++ "-" ++ Nat.repr env.randomInt ++ ".json", ?_⟩
    simp only [composeCoverageFilename, stringAppendAssoc]
  · intro h
    simp only [writeResponse, h]
  · intro e h
    simp only [writeResponse, h]

/-- C6 witness: a concrete upload whose URL ends in foo.html produces the
expected ok outcome, filename decomposition and 200 response. -/
theorem middleware_writes_coverage_file_witness :
    middlewareImpl mwCexEnv
      { userAgent := some "SomeBot/1.0", url := some "http://x/tests/foo.html",
        coverage := Json.obj [] }
      = Except.ok
          { filePath := pathJoin mwCexEnv.coverageDir
              (composeCoverageFilename (uaMatch "SomeBot/1.0") (lastSegmentStr "http://x/tests/foo.html")
                mwCexEnv.componentId mwCexEnv.randomInt),
            fileName := composeCoverageFilename (uaMatch "SomeBot/1.0")
              (lastSegmentStr "http://x/tests/foo.html") mwCexEnv.componentId mwCexEnv.randomInt,
            fileContent := Json.obj [],
            response := writeResponse mwCexEnv.writeError } ∧
    (∃ front back : String,
        composeCoverageFilename (uaMatch "SomeBot/1.0") (lastSegmentStr "http://x/tests/foo.html")
            mwCexEnv.componentId mwCexEnv.randomInt
          = front ++ lastSegmentStr "http://x/tests/foo.html" ++ back) ∧
    writeResponse mwCexEnv.writeError =
      { status := 200, isError := false,
        message := "You have successfully saved your coverage report." } := by
  have h := middleware_writes_coverage_file mwCexEnv
    { userAgent := some "SomeBot/1.0", url := some "http://x/tests/foo.html",
      coverage := Json.obj [] }
    "SomeBot/1.0" "http://x/tests/foo.html" rfl rfl (by decide)
  exact ⟨h.1, h.2.1, h.2.2.1 rfl⟩

/-- The key list of a consed map. -/
theorem objKeys_cons (kv : String × Target) (rest : List (String × Target)) :
    objKeys (kv :: rest) = kv.1 :: objKeys rest := rfl

/-- Keys after a JS object assignment: an existing key leaves the key list
unchanged, a new key is appended. -/
theorem objSet_keys (m : List (String × Target)) (k : String) (v : Target) :
    objKeys (objSet m k v) = if k ∈ objKeys m then objKeys m else objKeys m ++ [k] := by
  induction m with
  | nil => simp [objSet, objKeys]
  | cons kv rest ih =>
    by_cases h : kv.1 = k
    · simp [objSet, objKeys_cons, h]
    · have h2 : ¬k = kv.1 := fun hh => h hh.symm
      simp only [objSet, if_neg h, objKeys_cons, ih, List.mem_cons, h2, false_or]
      by_cases h3 : k ∈ objKeys rest
      · simp [h3]
      · simp [h3]

/-- Values after a JS object assignment: if every stored value already equals
v, this is preserved by assigning v again. -/
theorem objSet_values (v : Target) (m : List (String × Target)) (k : String)
    (hall : ∀ kv ∈ m, kv.2 = v) : ∀ kv ∈ objSet m k v, kv.2 = v := by
  induction m with
  | nil => simp [objSet]
  | cons hd rest ih =>
    intro kv hm
    by_cases h : hd.1 = k
    · simp only [objSet, h, if_true] at hm
      rcases List.mem_cons.mp hm with h2 | h2
      · rw [h2]
      · exact hall kv (List.mem_cons_of_mem hd h2)
    · simp only [objSet, h, if_false] at hm
      rcases List.mem_cons.mp hm with h2 | h2
      · rw [h2]; exact hall hd (List.mem_cons_self hd rest)
      · exact ih (fun kv2 hm2 => hall kv2 (List.mem_cons_of_mem hd hm2)) kv h2

/-- Looking up the just-assigned key yields the just-assigned value (last
write wins). -/
theorem objSet_lookup_self (m : List (String × Target)) (k : String) (v : Target) :
    objLookup (objSet m k v) k = some v := by
  induction m with
  | nil => simp [objSet, objLookup]
  | cons hd rest ih =>
    by_cases h : hd.1 = k <;> simp [objSet, objLookup, h, ih]

/-- Folding JS assignments of one fixed value keeps every stored value equal
to that value. -/
theorem foldl_objSet_values (v : Target) (l : List String) (m : List (String × Target))
    (hall : ∀ kv ∈ m, kv.2 = v) :
    ∀ kv ∈ l.foldl (fun m2 p => objSet m2 p v) m, kv.2 = v := by
  induction l generalizing m with
  | nil => simpa using hall
  | cons p rest ih =>
    intro kv hm
    exact ih (objSet m p v) (objSet_values v m p hall) kv hm

/-- The key list of a fold of JS assignments is the corresponding fold of
key insertions. -/
theorem foldl_objSet_keys (v : Target) (l : List String) (m : List (String × Target)) :
    objKeys (l.foldl (fun m2 p => objSet m2 p v) m)
      = l.foldl (fun ks p => if p ∈ ks then ks else ks ++ [p]) (objKeys m) := by
  induction l generalizing m with
  | nil => rfl
  | cons p rest ih =>
    simp only [List.foldl_cons]
    rw [ih, objSet_keys]

/-- Membership in the folded key insertions. -/
theorem keysFold_mem (l : List String) (ks : List String) (k : String) :
    (k ∈ l.foldl (fun ks2 p => if p ∈ ks2 then ks2 else ks2 ++ [p]) ks) ↔ k ∈ ks ∨ k ∈ l := by
  induction l generalizing ks with
  | nil => simp
  | cons p rest ih =>
    simp only [List.foldl_cons, ih, List.mem_cons]
    by_cases hp : p ∈ ks
    · simp only [hp, if_true]
      constructor
      · intro h; rcases h with h | h
        · exact Or.inl h
        · exact Or.inr (Or.inr h)
      · intro h
        rcases h with h | h | h
        · exact Or.inl h
        · exact Or.inl (h ▸ hp)
        · exact Or.inr h
    · simp only [hp, if_false, List.mem_append, List.mem_singleton]
      constructor
      · intro h
        rcases h with (h | h) | h
        · exact Or.inl h
        · exact Or.inr (Or.inl h)
        · exact Or.inr (Or.inr h)
      · intro h
        rcases h with h | h | h
        · exact Or.inl (Or.inl h)
        · exact Or.inl (Or.inr h)
        · exact Or.inr h

/-- The folded key insertions preserve key distinctness. -/
theorem keysFold_nodup (l : List String) (ks : List String) (h : ks.Nodup) :
    (l.foldl (fun ks2 p => if p ∈ ks2 then ks2 else ks2 ++ [p]) ks).Nodup := by
  induction l generalizing ks with
  | nil => simpa using h
  | cons p rest ih =>
    simp only [List.foldl_cons]
    by_cases hp : p ∈ ks
    · simp only [hp, if_true]
      exact ih ks h
    · simp only [hp, if_false]
      refine ih (ks ++ [p]) ?_
      simp [List.nodup_append, h, hp]

/-- A key present in the key list of an all-v map looks up to v. -/
theorem objLookup_eq_of_values (v : Target) (m : List (String × Target)) (k : String)
    (hall : ∀ kv ∈ m, kv.2 = v) (hk : k ∈ objKeys m) : objLookup m k = some v := by
  induction m with
  | nil => simp [objKeys] at hk
  | cons hd rest ih =>
    by_cases h : hd.1 = k
    · simp only [objLookup, h, if_true]
      rw [hall hd (List.mem_cons_self hd rest)]
    · simp only [objLookup, h, if_false]
      refine ih (fun kv2 hm2 => hall kv2 (List.mem_cons_of_mem hd hm2)) ?_
      simp only [objKeys, List.map_cons, List.mem_cons] at hk
      rcases hk with hk | hk
      · exact absurd hk.symm h
      · simpa [objKeys] using hk

/-- C7: constructProxies returns a map in which every key - each proxy path
derived from the two directory-definition groups, ordered by their declared
priorities with ties preserving declaration order, followed by each
additional proxy path appended last - maps to the target record for the
upstream base URL; a later same-key entry overrides the earlier binding
(last write wins), so the result has exactly one key per distinct path, the
keys appearing in first-occurrence order of the ordered path list, all
targeting the upstream base URL. -/
theorem constructProxies_proxy_map (expand : String → String)
    (sourceDirs contentDirs : List DirDef) (additionalProxies : List String)
    (coverageUrl : String) :
    (∀ kv ∈ constructProxies expand sourceDirs contentDirs additionalProxies coverageUrl,
        kv.2 = { target := coverageUrl }) ∧
    objKeys (constructProxies expand sourceDirs contentDirs additionalProxies coverageUrl)
      = (proxyDirPaths expand sourceDirs contentDirs additionalProxies).foldl
          (fun ks p => if p ∈ ks then ks else ks ++ [p]) [] ∧
    (∀ k : String,
        k ∈ objKeys (constructProxies expand sourceDirs contentDirs additionalProxies coverageUrl)
          ↔ k ∈ proxyDirPaths expand sourceDirs contentDirs additionalProxies) ∧
    (objKeys (constructProxies expand sourceDirs contentDirs additionalProxies coverageUrl)).Nodup ∧
    (∀ k ∈ proxyDirPaths expand sourceDirs contentDirs additionalProxies,
        objLookup (constructProxies expand sourceDirs contentDirs additionalProxies coverageUrl) k
          = some { target := coverageUrl }) ∧
    (∀ (m : List (String × Target)) (k : String) (v : Target),
        objLookup (objSet m k v) k = some v) := by
  have hvals := foldl_objSet_values { target := coverageUrl }
    (proxyDirPaths expand sourceDirs contentDirs additionalProxies) []
    (by intro kv hm; simp at hm)
  have hkeys := foldl_objSet_keys { target := coverageUrl }
    (proxyDirPaths expand sourceDirs contentDirs additionalProxies) []
  have hC : constructProxies expand sourceDirs contentDirs additionalProxies coverageUrl
      = (proxyDirPaths expand sourceDirs contentDirs additionalProxies).foldl
          (fun m2 p => objSet m2 p { target := coverageUrl }) [] := rfl
  refine ⟨hvals, hkeys, ?_, ?_, ?_, objSet_lookup_self⟩
  · intro k
    rw [hC, hkeys,
      keysFold_mem (proxyDirPaths expand sourceDirs contentDirs additionalProxies) (objKeys []) k]
    simp [objKeys]
  · rw [hC, hkeys]
    exact keysFold_nodup _ (objKeys []) (by simp [objKeys])
  · intro k hk
    refine objLookup_eq_of_values _ _ _ hvals ?_
    rw [hC, hkeys,
      keysFold_mem (proxyDirPaths expand sourceDirs contentDirs additionalProxies) (objKeys []) k]
    exact Or.inr hk

/-- C7 witness: with two prioritized directory groups and one additional
proxy path, the later-appended coverage path is bound to the upstream target
and looks up to it. -/
theorem constructProxies_proxy_map_witness :
    (("/coverage", ({ target := "http://localhost:7000" } : Target)) :
        String × Target).2 = { target := "http://localhost:7000" } ∧
    objLookup (constructProxies (fun p => p)
        [{ filePath := "/a/src", routePath := none, priority := 1 },
         { filePath := "/b/lib", routePath := none, priority := 0 }]
        [{ filePath := "/c/tests", routePath := none, priority := 0 }]
        ["/coverage"] "http://localhost:7000") "/coverage"
      = some { target := "http://localhost:7000" } := by
  constructor
  · exact (constructProxies_proxy_map (fun p => p)
      [{ filePath := "/a/src", routePath := none, priority := 1 },
       { filePath := "/b/lib", routePath := none, priority := 0 }]
      [{ filePath := "/c/tests", routePath := none, priority := 0 }]
      ["/coverage"] "http://localhost:7000").1
      ("/coverage", { target := "http://localhost:7000" }) (by decide)
  · exact (constructProxies_proxy_map (fun p => p)
      [{ filePath := "/a/src", routePath := none, priority := 1 },
       { filePath := "/b/lib", routePath := none, priority := 0 }]
      [{ filePath := "/c/tests", routePath := none, priority := 0 }]
      ["/coverage"] "http://localhost:7000").2.2.2.2.1 "/coverage" (by decide)

/-- C8: source-directory instrumentation runs strictly sequentially - when
every directory instruments successfully the instrumenter is invoked for
each configured directory in declaration order, and a single instrumentation
failure leaves the later directories uninstrumented (the trace stops at the
failing directory) and propagates as a rejection of the returned sequence
promise - in contrast to cleanup failures, which are absorbed. -/
theorem instrumentSource_sequential_fatal :
    (∀ (env : InstrumentEnv) (dirs : List SourcePathDef),
        (∀ d ∈ dirs,
          env.instrument (instrumentSourcePath env d) (instrumentDestPath env d) = Except.ok ()) →
        instrumentSource env dirs = (Except.ok (), dirs.map (instrumentSourcePath env))) ∧
    (∀ (env : InstrumentEnv) (pre post : List SourcePathDef) (d : SourcePathDef) (e : String),
        (∀ d2 ∈ pre,
          env.instrument (instrumentSourcePath env d2) (instrumentDestPath env d2) = Except.ok ()) →
        env.instrument (instrumentSourcePath env d) (instrumentDestPath env d) = Except.error e →
        instrumentSource env (pre ++ d :: post)
          = (Except.error e, (pre ++ [d]).map (instrumentSourcePath env))) := by
  constructor
  · intro env dirs h
    induction dirs with
    | nil => rfl
    | cons d rest ih =>
      have hd := h d (by simp)
      have hr := ih (fun d2 hm => h d2 (by simp [hm]))
      simp only [instrumentSource, hd, hr, List.map_cons]
  · intro env pre post d e hpre hd
    induction pre with
    | nil =>
      simp only [List.nil_append, instrumentSource, hd, List.map_cons, List.map_nil]
    | cons p rest ih =>
      have hp := hpre p (by simp)
      have hr := ih (fun d2 hm => hpre d2 (by simp [hm]))
      simp only [List.cons_append, instrumentSource, List.append_eq, hp, hr, List.map_cons]

/-- A concrete instrumentation environment in which one source directory
fails to instrument. -/
def instrumentCexEnv : InstrumentEnv :=
  { cwd := "/cwd",
    instrumentedSourceDir := "/tmp/instrumented",
    resolveModulePath := fun p => p,
    instrument := fun src _ => if src = "/bad" then Except.error "boom" else Except.ok () }

/-- C8 witness: with a good, a bad and a later directory, the sequence
rejects with the bad directory error and the later directory is never
instrumented. -/
theorem instrumentSource_sequential_fatal_witness :
    instrumentSource instrumentCexEnv
      [{ filePath := "/good" }, { filePath := "/bad" }, { filePath := "/later" }]
      = (Except.error "boom", ["/good", "/bad"]) ∧
    instrumentSource instrumentCexEnv [{ filePath := "/good" }]
      = (Except.ok (), ["/good"]) := by
  constructor
  · have h := instrumentSource_sequential_fatal.2 instrumentCexEnv
      [{ filePath := "/good" }] [{ filePath := "/later" }] { filePath := "/bad" } "boom"
      (by intro d2 hm; simp only [List.mem_singleton] at hm; subst hm; rfl) rfl
    simpa using h
  · have h := instrumentSource_sequential_fatal.1 instrumentCexEnv [{ filePath := "/good" }]
      (by intro d2 hm; simp only [List.mem_singleton] at hm; subst hm; rfl)
    simpa using h
